import Mathlib

/-!
Verification of the badge-access analyzer (`analyze_badges.py`).

The file embeds the three analyses of the source — `detect_impossible_travel`,
`detect_curious_users` and `room_typing` — as executable Lean functions over an
explicit event record, and proves the behavioural claims about them.

Modelling conventions:
* A pandas DataFrame of events is a `List Event` in input-row order.
* `iso_to_epoch` (dateutil parsing to UTC epoch seconds) is a parameter
  `parse : String → Option Int`; `none` models the `ParseError` raised on an
  invalid timestamp, which `Series.apply` propagates, aborting the analysis.
  Likewise the hour-of-day extraction (`pd.to_datetime(...).dt.hour`) is a
  parameter `parseHour : String → Option Nat`; `none` models a coerced `NaT`,
  whose row is dropped from the hour histogram by `groupby` (NaN group keys).
* `sort_values(["user_id", "epoch"])` on several columns is a stable lexsort
  in pandas; it is modelled by `List.insertionSort` on the lexicographic
  relation `evLE`, which is stable.
* `groupby(...).shift(±1)` neighbour access inside each user group equals
  looking at consecutive entries of the fully (user, epoch)-sorted list and
  keeping only the same-user pairs, which is how it is modelled here.
* Machine floats (`/ 60.0`, `clip`, medians) are modelled over `ℚ`.
* A Python value stored in the optional `success` field is a `PyVal`, so that
  the identity test `row.get("success", True) is False` can be expressed:
  it holds exactly for the Python object `False`, i.e. `PyVal.pyBool false`.
-/

namespace Badges

/-- A dynamically-typed Python value, as relevant to the `success` field. -/
inductive PyVal where
  | pyBool : Bool → PyVal
  | pyInt : Int → PyVal
  | pyStr : String → PyVal
  | pyNone : PyVal
  | pyNaN : PyVal
deriving DecidableEq

/-- One row of the input event log. `success` is `none` when the field is
absent from the record. -/
structure Event where
  user_id : String
  location_id : String
  room_id : String
  timestamp : String
  success : Option PyVal
deriving DecidableEq

/-- An event together with its normalized epoch (the `epoch` column added by
`d["timestamp"].apply(iso_to_epoch)`). -/
structure NEvent where
  ev : Event
  epoch : Int
deriving DecidableEq

/-- Applies the timestamp parser to every event, as
`d["timestamp"].apply(iso_to_epoch)` does; the first `ParseError` aborts the
whole computation (`none`). -/
def normalize (parse : String → Option Int) : List Event → Option (List NEvent)
  | [] => some []
  | e :: rest =>
    match parse e.timestamp with
    | none => none
    | some t => (normalize parse rest).map (fun r => ⟨e, t⟩ :: r)

/-- The lexicographic (user_id, epoch) order used by
`sort_values(["user_id", "epoch"])`. -/
def evLE (a b : NEvent) : Prop :=
  a.ev.user_id < b.ev.user_id ∨ (a.ev.user_id = b.ev.user_id ∧ a.epoch ≤ b.epoch)

instance : DecidableRel evLE := fun a b => by
  unfold evLE; exact inferInstance

instance : IsTotal NEvent evLE where
  total a b := by
    rcases lt_trichotomy a.ev.user_id b.ev.user_id with h | h | h
    · exact Or.inl (Or.inl h)
    · rcases le_total a.epoch b.epoch with he | he
      · exact Or.inl (Or.inr ⟨h, he⟩)
      · exact Or.inr (Or.inr ⟨h.symm, he⟩)
    · exact Or.inr (Or.inl h)

instance : IsTrans NEvent evLE where
  trans a b c hab hbc := by
    rcases hab with h1 | ⟨h1, e1⟩
    · rcases hbc with h2 | ⟨h2, e2⟩
      · exact Or.inl (h1.trans h2)
      · exact Or.inl (h2 ▸ h1)
    · rcases hbc with h2 | ⟨h2, e2⟩
      · exact Or.inl (h1 ▸ h2)
      · exact Or.inr ⟨h1.trans h2, e1.trans e2⟩

/-- The stable (user_id, epoch) sort shared by `detect_impossible_travel`
(line 58) and `room_typing` (line 104). -/
def sortByUserEpoch (l : List NEvent) : List NEvent :=
  List.insertionSort evLE l

/-- All pairs of adjacent elements of a list; on the (user, epoch)-sorted
event list, the same-user pairs among these are exactly the
`groupby("user_id").shift(1)` predecessor/successor pairs. -/
def consecutivePairs : List NEvent → List (NEvent × NEvent)
  | [] => []
  | [_] => []
  | a :: b :: rest => (a, b) :: consecutivePairs (b :: rest)

/-- The travel-detection threshold: `FOUR_HOURS_SECS = 4 * 60 * 60`. -/
def FOUR_HOURS_SECS : Int := 4 * 60 * 60

/-- One detected impossible-travel pair, mirroring the columns selected and
renamed at lines 68-77 of the source. -/
structure TravelFinding where
  user_id : String
  first_location : String
  second_location : String
  first_ts : Int
  second_ts : Int
  delta_secs : Int
deriving DecidableEq

/-- The finding row that a qualifying adjacent pair produces. -/
def mkFinding (p c : NEvent) : TravelFinding :=
  ⟨c.ev.user_id, p.ev.location_id, c.ev.location_id, p.epoch, c.epoch,
    c.epoch - p.epoch⟩

/-- The mask of lines 62-66: the pair must lie inside one user group
(`prev_loc` not NaN), change location, and be under four hours apart. -/
def travelStep (pr : NEvent × NEvent) : Option TravelFinding :=
  if pr.1.ev.user_id = pr.2.ev.user_id ∧
      pr.1.ev.location_id ≠ pr.2.ev.location_id ∧
      pr.2.epoch - pr.1.epoch < FOUR_HOURS_SECS
  then some (mkFinding pr.1 pr.2)
  else none

/-- The body of `detect_impossible_travel` after timestamp normalization. -/
def travelCore (l : List NEvent) : List TravelFinding :=
  (consecutivePairs (sortByUserEpoch l)).filterMap travelStep

/-- Lines 54-78 of the source: normalize every timestamp (a `ParseError`
is fatal), then emit the qualifying adjacent same-user pairs. -/
def detect_impossible_travel (parse : String → Option Int) (df : List Event) :
    Option (List TravelFinding) :=
  (normalize parse df).map travelCore

/-- The test `row.get("success", True) is False`: true exactly when the field
is present and holds the Python object `False`. -/
def isFalseLit : Option PyVal → Bool
  | some (PyVal.pyBool false) => true
  | _ => false

/-- Lines 83-85 of the source. The permission table is a total lookup
returning the allowed rooms, empty list for unknown users
(`allowed_map.get(row["user_id"], set())`). -/
def is_unauth (allowed : String → List String) (e : Event) : Bool :=
  isFalseLit e.success && !(decide (e.room_id ∈ allowed e.user_id))

/-- One output row of `detect_curious_users`. -/
structure CuriousRecord where
  user_id : String
  attempts : Nat
deriving DecidableEq

/-- How many events of user `u` count as unauthorized attempts. -/
def countUnauth (allowed : String → List String) (df : List Event)
    (u : String) : Nat :=
  (df.filter (fun e => is_unauth allowed e && e.user_id == u)).length

/-- Descending order on attempt counts, for the final
`sort_values("attempts", ascending=False)`. -/
def attDesc (a b : CuriousRecord) : Prop :=
  b.attempts ≤ a.attempts

instance : DecidableRel attDesc := fun a b => by
  unfold attDesc; exact inferInstance

instance : IsTotal CuriousRecord attDesc where
  total a b := Nat.le_total b.attempts a.attempts

instance : IsTrans CuriousRecord attDesc where
  trans _ _ _ hab hbc := Nat.le_trans hbc hab

/-- The aggregate row of one user group: `attempts` sums the `curious`
booleans of that group, i.e. counts them. -/
def mkRec (cur : List Event) (u : String) : CuriousRecord :=
  ⟨u, (cur.filter (fun e => e.user_id == u)).length⟩

/-- The curious rows `d[d["curious"]]` of line 90. -/
def curOf (allowed : String → List String) (df : List Event) : List Event :=
  df.filter (is_unauth allowed)

/-- The user groups that `groupby("user_id")` enumerates, ascending. -/
def usersOf (allowed : String → List String) (df : List Event) :
    List String :=
  List.insertionSort (· ≤ ·) ((curOf allowed df).map (fun e => e.user_id)).dedup

/-- Lines 81-97 of the source: keep the curious rows, group them by user
(`groupby` sorts keys ascending), count each group, then sort descending by
attempts. -/
def detect_curious_users (allowed : String → List String) (df : List Event) :
    List CuriousRecord :=
  List.insertionSort attDesc
    ((usersOf allowed df).map (mkRec (curOf allowed df)))

/-- Clipping of line 108: `clip(lower=0, upper=240)`. -/
def clipDwell (q : ℚ) : ℚ :=
  min 240 (max 0 q)

/-- One retained row of the dwell table of `room_typing`: an event that has a
same-user successor, its epoch, its clipped dwell in minutes, and the hour of
day extracted from the original timestamp string (`none` when the lenient
re-parse of line 109 coerces it to `NaT`). -/
structure DwellRow where
  ev : Event
  epoch : Int
  dwell_mins : ℚ
  hour : Option Nat
deriving DecidableEq

/-- Lines 105-109 applied to one adjacent pair of the sorted list: a pair
inside one user group yields the first event with
`dwell_mins = clip((next_epoch - epoch) / 60)`; a pair straddling two user
groups yields nothing (the group's last row has `next_epoch` NaN and is
dropped by line 107). -/
def dwellStep (parseHour : String → Option Nat) (pr : NEvent × NEvent) :
    Option DwellRow :=
  if pr.1.ev.user_id = pr.2.ev.user_id
  then some ⟨pr.1.ev, pr.1.epoch,
    clipDwell (((pr.2.epoch - pr.1.epoch : Int) : ℚ) / 60),
    parseHour pr.1.ev.timestamp⟩
  else none

/-- The dwell table of `room_typing` (lines 102-109). -/
def dwellRowsOf (parseHour : String → Option Nat) (l : List NEvent) :
    List DwellRow :=
  (consecutivePairs (sortByUserEpoch l)).filterMap (dwellStep parseHour)

/-- Median as numpy computes it: middle element of the sorted values for odd
length, mean of the two middle elements for even length. -/
def medianQ (l : List ℚ) : ℚ :=
  let s := List.insertionSort (· ≤ ·) l
  if s.length % 2 = 1 then s.getD (s.length / 2) 0
  else (s.getD (s.length / 2 - 1) 0 + s.getD (s.length / 2) 0) / 2

/-- The hour histogram entry of room `r` at hour `h`
(`groupby(["room_id", "hour"]).size()`, reindexed over 0..23 with 0 fill;
rows whose hour is NaN are dropped by the groupby). -/
def hourCount (rows : List DwellRow) (r : String) (h : Nat) : Nat :=
  (rows.filter (fun x => x.ev.room_id == r && x.hour == some h)).length

/-- Morning bucket of line 124: hours 7-9. -/
def bMorning (hist : Nat → Nat) : Nat :=
  hist 7 + hist 8 + hist 9

/-- Lunch bucket of line 125: hours 11-13. -/
def bLunch (hist : Nat → Nat) : Nat :=
  hist 11 + hist 12 + hist 13

/-- Evening bucket of line 126: hours 16-19. -/
def bEve (hist : Nat → Nat) : Nat :=
  hist 16 + hist 17 + hist 18 + hist 19

/-- Night bucket of line 127: hours 0-5 and 21-23. -/
def bNight (hist : Nat → Nat) : Nat :=
  hist 0 + hist 1 + hist 2 + hist 3 + hist 4 + hist 5 +
    hist 21 + hist 22 + hist 23

/-- Lines 122-139 of the source: the cascading label reassignments applied to
one aggregated room row (median dwell plus hour histogram). -/
def label_row (med : ℚ) (hist : Nat → Nat) : String :=
  let morning := bMorning hist
  let lunch := bLunch hist
  let eve := bEve hist
  let night := bNight hist
  let l0 := "Other/Office"
  let l1 := if morning > lunch ∧ med < 15 then "Lobby/Entry" else l0
  let l2 := if 25 ≤ med ∧ med ≤ 150 ∧ lunch > morning ∧ lunch > eve
    then "Conference/Meeting" else l1
  let l3 := if med < 10 ∧ morning + lunch + eve > 50 ∧ night = 0
    then "Hallway/Break" else l2
  let l4 := if 40 ≤ med ∧ med ≤ 90 ∧ lunch > morning + eve ∧ lunch > 20
    then "Cafeteria" else l3
  if night > morning + lunch + eve ∧ 60 ≤ med
  then "Security/Overnight/Server" else l4

/-- The spec's reading of the classifier: an ordered list of
(predicate, label) rules over the bucketed features, in the stated order. -/
def roomRules (med : ℚ) (morning lunch eve night : Nat) :
    List (Bool × String) :=
  [ (decide (morning > lunch) && decide (med < 15), "Lobby/Entry"),
    (decide (25 ≤ med) && decide (med ≤ 150) && decide (lunch > morning) &&
      decide (lunch > eve), "Conference/Meeting"),
    (decide (med < 10) && decide (morning + lunch + eve > 50) &&
      decide (night = 0), "Hallway/Break"),
    (decide (40 ≤ med) && decide (med ≤ 90) && decide (lunch > morning + eve)
      && decide (lunch > 20), "Cafeteria"),
    (decide (night > morning + lunch + eve) && decide (60 ≤ med),
      "Security/Overnight/Server") ]

/-- Last-match-wins evaluation of an ordered rule list over a default. -/
def lastMatch (dflt : String) (rules : List (Bool × String)) : String :=
  rules.foldl (fun acc pr => if pr.1 then pr.2 else acc) dflt

/-- One output row of `room_typing`. -/
structure RoomProfile where
  room_id : String
  visits : Nat
  median_dwell_mins : ℚ
  label : String
deriving DecidableEq

/-- Descending order on visit counts, for the final
`sort_values("visits", ascending=False)`. -/
def visitsDesc (a b : RoomProfile) : Prop :=
  b.visits ≤ a.visits

instance : DecidableRel visitsDesc := fun a b => by
  unfold visitsDesc; exact inferInstance

instance : IsTotal RoomProfile visitsDesc where
  total a b := Nat.le_total b.visits a.visits

instance : IsTrans RoomProfile visitsDesc where
  trans _ _ _ hab hbc := Nat.le_trans hbc hab

/-- The distinct rooms of the dwell table, ascending, as
`groupby("room_id")` enumerates its groups. -/
def uniqueRooms (rows : List DwellRow) : List String :=
  List.insertionSort (· ≤ ·) (rows.map (fun x => x.ev.room_id)).dedup

/-- The aggregated and labelled row of one room (lines 111-120 and 145). -/
def profileFor (rows : List DwellRow) (r : String) : RoomProfile :=
  let rr := rows.filter (fun x => x.ev.room_id == r)
  let med := medianQ (rr.map (fun x => x.dwell_mins))
  ⟨r, rr.length, med, label_row med (fun h => hourCount rows r h)⟩

/-- The body of `room_typing` after timestamp normalization. -/
def roomCore (parseHour : String → Option Nat) (nl : List NEvent) :
    List RoomProfile :=
  let rows := dwellRowsOf parseHour nl
  List.insertionSort visitsDesc ((uniqueRooms rows).map (profileFor rows))

/-- Lines 100-148 of the source: normalize every timestamp (a `ParseError`
is fatal), then aggregate, label and sort the rooms. -/
def room_typing (parse : String → Option Int)
    (parseHour : String → Option Nat) (df : List Event) :
    Option (List RoomProfile) :=
  (normalize parse df).map (roomCore parseHour)

/-!
Helper lemmas.
-/

theorem isFalseLit_eq_true_iff (o : Option PyVal) :
    isFalseLit o = true ↔ o = some (PyVal.pyBool false) := by
  cases o with
  | none => simp [isFalseLit]
  | some v =>
    cases v with
    | pyBool b => cases b <;> simp [isFalseLit]
    | pyInt n => simp [isFalseLit]
    | pyStr s => simp [isFalseLit]
    | pyNone => simp [isFalseLit]
    | pyNaN => simp [isFalseLit]

theorem normalize_eq_none_of_bad (parse : String → Option Int) :
    ∀ (df : List Event) (e : Event), e ∈ df → parse e.timestamp = none →
      normalize parse df = none := by
  intro df
  induction df with
  | nil => intro e he; cases he
  | cons a rest ih =>
    intro e he hbad
    cases hp : parse a.timestamp with
    | none => simp [normalize, hp]
    | some t =>
      rcases List.mem_cons.mp he with rfl | hmem
      · rw [hp] at hbad; cases hbad
      · simp [normalize, hp, ih e hmem hbad]

/-!
Sample inputs used by the witnesses.
-/

/-- A parser giving each timestamp string its length as epoch. -/
def pLen : String → Option Int := fun s => some (s.length : Int)

/-- A parser rejecting every timestamp string. -/
def pNone : String → Option Int := fun _ => none

/-- An hour extraction that always coerces to NaT. -/
def phNone : String → Option Nat := fun _ => none

/-- A permission table granting "U2" only room "Y". -/
def awY : String → List String := fun u => if u = "U2" then ["Y"] else []

/-!
Claim theorems.
-/

/-- C2: `detect_curious_users` counts an event as an unauthorized attempt
if and only if its `success` field holds exactly the boolean `False` and the
accessed room is not in the user's allowed set; an absent or `True` success
never counts, and a disallowed room alone never counts. -/
theorem c2_unauth_iff (allowed : String → List String) (e : Event) :
    is_unauth allowed e = true ↔
      (e.success = some (PyVal.pyBool false) ∧
        e.room_id ∉ allowed e.user_id) := by
  simp [is_unauth, Bool.and_eq_true, isFalseLit_eq_true_iff]

/-- C2 witness: a concrete event with `success = False` and a disallowed room
is counted. -/
theorem c2_unauth_iff_witness :
    is_unauth awY ⟨"U2", "X", "X", "t", some (PyVal.pyBool false)⟩ = true :=
  (c2_unauth_iff awY ⟨"U2", "X", "X", "t", some (PyVal.pyBool false)⟩).mpr
    ⟨rfl, by decide⟩

/-- C10: an event whose `success` field holds any value other than the
boolean literal `False` — e.g. `0`, the string "false", `None`, or `NaN` —
is never counted as an unauthorized attempt, because the source tests
`row.get("success", True) is False`, an identity comparison against the
`False` object. -/
theorem c10_non_false_literal_never_counted (allowed : String → List String)
    (e : Event) (v : PyVal) (h1 : e.success = some v)
    (h2 : v ≠ PyVal.pyBool false) :
    is_unauth allowed e = false := by
  have hlit : isFalseLit e.success = false := by
    rw [h1]
    cases v with
    | pyBool b => cases b with
      | false => exact absurd rfl h2
      | true => rfl
    | pyInt n => rfl
    | pyStr s => rfl
    | pyNone => rfl
    | pyNaN => rfl
  simp [is_unauth, hlit]

/-- C10 witness: a concrete event whose `success` holds the integer `0`
(falsy but not the `False` literal), accessing a disallowed room, is not
counted. -/
theorem c10_non_false_literal_never_counted_witness :
    is_unauth awY ⟨"U2", "X", "X", "t", some (PyVal.pyInt 0)⟩ = false :=
  c10_non_false_literal_never_counted awY
    ⟨"U2", "X", "X", "t", some (PyVal.pyInt 0)⟩ (PyVal.pyInt 0) rfl (by decide)

/-- C9: each of the three analyses is a deterministic function of its input:
running it twice on the identical event collection and permission table
yields identical output collections, same rows in the same order. -/
theorem c9_idempotent (parse : String → Option Int)
    (parseHour : String → Option Nat) (allowed : String → List String)
    (df : List Event) :
    detect_impossible_travel parse df = detect_impossible_travel parse df ∧
      detect_curious_users allowed df = detect_curious_users allowed df ∧
      room_typing parse parseHour df = room_typing parse parseHour df :=
  ⟨rfl, rfl, rfl⟩

/-- C6: an event whose timestamp string the ISO-8601 parser rejects is fatal
for both analyses that normalize timestamps: `detect_impossible_travel` and
`room_typing` (including its hour-of-day derivation, which is never reached)
produce no output at all — no event is skipped and no default substituted. -/
theorem c6_parse_error_fatal (parse : String → Option Int)
    (parseHour : String → Option Nat) (df : List Event) (e : Event)
    (he : e ∈ df) (hbad : parse e.timestamp = none) :
    detect_impossible_travel parse df = none ∧
      room_typing parse parseHour df = none := by
  have hn := normalize_eq_none_of_bad parse df e he hbad
  exact ⟨by simp [detect_impossible_travel, hn],
    by simp [room_typing, hn]⟩

/-- C6 witness: with a parser rejecting every string, both analyses fail on a
concrete one-event log. -/
theorem c6_parse_error_fatal_witness :
    detect_impossible_travel pNone [⟨"u", "L", "R", "bad", none⟩] = none ∧
      room_typing pNone phNone [⟨"u", "L", "R", "bad", none⟩] = none :=
  c6_parse_error_fatal pNone phNone [⟨"u", "L", "R", "bad", none⟩]
    ⟨"u", "L", "R", "bad", none⟩ (by decide) rfl

/-- A two-element list already in (user, epoch) order is left unchanged by
the stable sort. -/
theorem sortPair_eq (a b : NEvent) (h : evLE a b) :
    sortByUserEpoch [a, b] = [a, b] :=
  List.Sorted.insertionSort_eq (by simp [List.sorted_cons, h])

/-- The single adjacent pair of a two-element sorted list. -/
theorem mem_pairs_two (a b : NEvent) (h : evLE a b) :
    (a, b) ∈ consecutivePairs (sortByUserEpoch [a, b]) := by
  rw [sortPair_eq a b h]
  simp [consecutivePairs]

/-- Concrete events for the witnesses: one user, two locations/rooms. -/
def nA : NEvent := ⟨⟨"u", "L1", "A", "t", none⟩, 0⟩

/-- Second event of the same user, different location, 14399 seconds later. -/
def nB : NEvent := ⟨⟨"u", "L2", "B", "t", none⟩, 14399⟩

/-- Variant of `nB` exactly 14400 seconds after `nA`. -/
def nB14400 : NEvent := ⟨⟨"u", "L2", "B", "t", none⟩, 14400⟩

/-- Variant at the same location as `nA`, shortly after it. -/
def nSameLoc : NEvent := ⟨⟨"u", "L1", "B", "t", none⟩, 7⟩

/-- C1: for an adjacent same-user pair of the (user, epoch)-sorted sequence,
`detect_impossible_travel` emits the finding carrying both locations, both
epochs and their difference if and only if the location changed and the gap
is strictly below 14400 seconds; and every emitted finding arises from such
a pair this way. -/
theorem c1_travel_iff (l : List NEvent) (p c : NEvent)
    (hmem : (p, c) ∈ consecutivePairs (sortByUserEpoch l))
    (huser : p.ev.user_id = c.ev.user_id) :
    (mkFinding p c ∈ travelCore l ↔
      (p.ev.location_id ≠ c.ev.location_id ∧
        c.epoch - p.epoch < FOUR_HOURS_SECS)) ∧
    (∀ f ∈ travelCore l, ∃ a b,
      (a, b) ∈ consecutivePairs (sortByUserEpoch l) ∧
      a.ev.user_id = b.ev.user_id ∧ a.ev.location_id ≠ b.ev.location_id ∧
      b.epoch - a.epoch < FOUR_HOURS_SECS ∧ f = mkFinding a b) := by
  constructor
  · constructor
    · intro hf
      rcases List.mem_filterMap.mp hf with ⟨pr, _, hstep⟩
      unfold travelStep at hstep
      split at hstep
      · rename_i hcond
        have heq := Option.some.inj hstep
        simp only [mkFinding, TravelFinding.mk.injEq] at heq
        obtain ⟨_, hl1, hl2, he1, he2, _⟩ := heq
        rw [← hl1, ← hl2, ← he1, ← he2]
        exact ⟨hcond.2.1, hcond.2.2⟩
      · cases hstep
    · intro hc
      refine List.mem_filterMap.mpr ⟨(p, c), hmem, ?_⟩
      unfold travelStep
      rw [if_pos ⟨huser, hc.1, hc.2⟩]
  · intro f hf
    rcases List.mem_filterMap.mp hf with ⟨pr, hpr, hstep⟩
    unfold travelStep at hstep
    split at hstep
    · rename_i hcond
      exact ⟨pr.1, pr.2, by simpa using hpr, hcond.1, hcond.2.1, hcond.2.2,
        (Option.some.inj hstep).symm⟩
    · cases hstep

/-- C1 witness: at a gap of exactly 14399 seconds across two locations the
finding is emitted; at exactly 14400 seconds it is not; at the same location
it is not, whatever the gap. -/
theorem c1_travel_iff_witness :
    mkFinding nA nB ∈ travelCore [nA, nB] ∧
      mkFinding nA nB14400 ∉ travelCore [nA, nB14400] ∧
      mkFinding nA nSameLoc ∉ travelCore [nA, nSameLoc] :=
  ⟨(c1_travel_iff [nA, nB] nA nB
      (mem_pairs_two nA nB (Or.inr ⟨rfl, by decide⟩)) rfl).1.mpr
      (by decide),
    fun h => absurd
      ((c1_travel_iff [nA, nB14400] nA nB14400
        (mem_pairs_two nA nB14400 (Or.inr ⟨rfl, by decide⟩)) rfl).1.mp h)
      (by decide),
    fun h => absurd
      ((c1_travel_iff [nA, nSameLoc] nA nSameLoc
        (mem_pairs_two nA nSameLoc (Or.inr ⟨rfl, by decide⟩)) rfl).1.mp h)
      (by decide)⟩

/-- C3: every adjacent same-user pair of the sorted sequence contributes a
dwell row for its first event whose dwell is the gap to the next event in
minutes, clipped to [0, 240]; every dwell row arises this way (so the last
event of each user is dropped); and the clip sends 500 to 240 and -5 to 0. -/
theorem c3_dwell_clipped (parseHour : String → Option Nat) (l : List NEvent)
    (a b : NEvent) (hmem : (a, b) ∈ consecutivePairs (sortByUserEpoch l))
    (huser : a.ev.user_id = b.ev.user_id) :
    ((⟨a.ev, a.epoch, clipDwell (((b.epoch - a.epoch : Int) : ℚ) / 60),
        parseHour a.ev.timestamp⟩ : DwellRow) ∈ dwellRowsOf parseHour l) ∧
    (∀ row ∈ dwellRowsOf parseHour l, ∃ x y,
      (x, y) ∈ consecutivePairs (sortByUserEpoch l) ∧
      x.ev.user_id = y.ev.user_id ∧
      row = ⟨x.ev, x.epoch, clipDwell (((y.epoch - x.epoch : Int) : ℚ) / 60),
        parseHour x.ev.timestamp⟩) ∧
    clipDwell 500 = 240 ∧ clipDwell (-5) = 0 := by
  refine ⟨?_, ?_, by norm_num [clipDwell], by norm_num [clipDwell]⟩
  · refine List.mem_filterMap.mpr ⟨(a, b), hmem, ?_⟩
    unfold dwellStep
    rw [if_pos huser]
  · intro row hrow
    rcases List.mem_filterMap.mp hrow with ⟨pr, hpr, hstep⟩
    unfold dwellStep at hstep
    split at hstep
    · rename_i hcond
      exact ⟨pr.1, pr.2, by simpa using hpr, hcond,
        (Option.some.inj hstep).symm⟩
    · cases hstep

/-- C3 witness: the concrete pair `nA`, `nB` yields the dwell row of `nA`
with the clipped converted gap. -/
theorem c3_dwell_clipped_witness :
    (⟨nA.ev, nA.epoch, clipDwell (((nB.epoch - nA.epoch : Int) : ℚ) / 60),
      phNone nA.ev.timestamp⟩ : DwellRow) ∈ dwellRowsOf phNone [nA, nB] :=
  (c3_dwell_clipped phNone [nA, nB] nA nB
    (mem_pairs_two nA nB (Or.inr ⟨rfl, by decide⟩)) rfl).1

/-- C5: the (user_id, epoch) sort that `detect_impossible_travel` and
`room_typing` share is stable: the events of any one user carrying any one
timestamp appear in the sorted sequence exactly in their original input
order, so tie-broken neighbour pairs are determined by input order. -/
theorem c5_sort_stable (l : List NEvent) (u : String) (t : Int) :
    (sortByUserEpoch l).filter (fun x => x.ev.user_id == u && x.epoch == t) =
      l.filter (fun x => x.ev.user_id == u && x.epoch == t) := by
  have hpw : (l.filter
      (fun x => x.ev.user_id == u && x.epoch == t)).Pairwise evLE := by
    apply List.pairwise_of_forall_mem_list
    intro a ha b hb
    have ha2 := (List.mem_filter.mp ha).2
    have hb2 := (List.mem_filter.mp hb).2
    simp only [Bool.and_eq_true, beq_iff_eq] at ha2 hb2
    exact Or.inr ⟨ha2.1.trans hb2.1.symm, le_of_eq (ha2.2.trans hb2.2.symm)⟩
  have hsub : List.Sublist
      (l.filter (fun x => x.ev.user_id == u && x.epoch == t))
      (sortByUserEpoch l) :=
    List.sublist_insertionSort hpw (List.filter_sublist l)
  have hsub2 := hsub.filter (fun x => x.ev.user_id == u && x.epoch == t)
  rw [List.filter_filter] at hsub2
  simp only [Bool.and_self] at hsub2
  have hperm : List.Perm
      ((sortByUserEpoch l).filter (fun x => x.ev.user_id == u && x.epoch == t))
      (l.filter (fun x => x.ev.user_id == u && x.epoch == t)) :=
    (List.perm_insertionSort evLE l).filter _
  exact (hsub2.eq_of_length hperm.length_eq.symm).symm

/-- C8: a room whose events all lack a same-user successor contributes no
dwell row, so `room_typing` outputs no row at all for it. -/
theorem c8_room_without_visits_absent (parse : String → Option Int)
    (parseHour : String → Option Nat) (df : List Event) (nl : List NEvent)
    (r : String) (hn : normalize parse df = some nl)
    (hlast : ∀ pr ∈ consecutivePairs (sortByUserEpoch nl),
      pr.1.ev.user_id = pr.2.ev.user_id → pr.1.ev.room_id ≠ r) :
    room_typing parse parseHour df = some (roomCore parseHour nl) ∧
      r ∉ (roomCore parseHour nl).map (fun p => p.room_id) := by
  refine ⟨by simp [room_typing, hn], ?_⟩
  intro hmem
  have hrows : ∀ row ∈ dwellRowsOf parseHour nl, row.ev.room_id ≠ r := by
    intro row hrow
    rcases List.mem_filterMap.mp hrow with ⟨pr, hpr, hstep⟩
    unfold dwellStep at hstep
    split at hstep
    · rename_i hcond
      rw [← Option.some.inj hstep]
      exact hlast pr hpr hcond
    · cases hstep
  simp only [roomCore, List.mem_map] at hmem
  rcases hmem with ⟨p, hp, hpr⟩
  rw [List.mem_insertionSort] at hp
  rcases List.mem_map.mp hp with ⟨r2, hr2, hpf⟩
  have hid : p.room_id = r2 := by rw [← hpf]; rfl
  rw [hid] at hpr
  rw [uniqueRooms, List.mem_insertionSort, List.mem_dedup] at hr2
  rcases List.mem_map.mp hr2 with ⟨row, hrow, hrid⟩
  exact hrows row hrow (hpr ▸ hrid)

/-- First normalized event of the C8 witness log: user "u" in room "A". -/
def nX1 : NEvent := ⟨⟨"u", "L1", "A", "x", none⟩, 1⟩

/-- Second normalized event of the C8 witness log: the last event of user
"u", in room "B". -/
def nX2 : NEvent := ⟨⟨"u", "L2", "B", "xx", none⟩, 2⟩

/-- C8 witness: room "B" occurs only as the last event of user "u", so the
concrete output contains only room "A". -/
theorem c8_room_without_visits_absent_witness :
    room_typing pLen phNone
        [⟨"u", "L1", "A", "x", none⟩, ⟨"u", "L2", "B", "xx", none⟩] =
      some (roomCore phNone [nX1, nX2]) ∧
      "B" ∉ (roomCore phNone [nX1, nX2]).map (fun p => p.room_id) :=
  c8_room_without_visits_absent pLen phNone
    [⟨"u", "L1", "A", "x", none⟩, ⟨"u", "L2", "B", "xx", none⟩]
    [nX1, nX2] "B" rfl
    (by
      rw [sortPair_eq nX1 nX2 (Or.inr ⟨rfl, by decide⟩)]
      intro pr hpr
      simp only [consecutivePairs] at hpr
      rw [List.mem_singleton] at hpr
      subst hpr
      intro _
      decide)

/-- Counting the user's rows inside the curious subset equals counting the
user's unauthorized events in the whole log. -/
theorem curFilter_length (allowed : String → List String) (df : List Event)
    (u : String) :
    ((curOf allowed df).filter (fun e => e.user_id == u)).length =
      countUnauth allowed df u := by
  unfold curOf countUnauth
  rw [List.filter_filter]
  exact congrArg List.length
    (List.filter_congr (fun e _ => Bool.and_comm _ _))

/-- C7: `detect_curious_users` outputs exactly one row per user with at
least one unauthorized attempt — no row for a user with none — carrying that
user's attempt count, and the rows are sorted descending by attempts (the
output is a deterministic function of the input, so ties are broken
deterministically). -/
theorem c7_curious_rows (allowed : String → List String) (df : List Event) :
    ((detect_curious_users allowed df).map (fun c => c.user_id)).Nodup ∧
    (∀ u, u ∈ (detect_curious_users allowed df).map (fun c => c.user_id) ↔
      0 < countUnauth allowed df u) ∧
    (∀ c ∈ detect_curious_users allowed df,
      c.attempts = countUnauth allowed df c.user_id) ∧
    (detect_curious_users allowed df).Pairwise
      (fun a b => b.attempts ≤ a.attempts) := by
  have hperm : List.Perm (detect_curious_users allowed df)
      ((usersOf allowed df).map (mkRec (curOf allowed df))) :=
    List.perm_insertionSort attDesc _
  have husers : ((usersOf allowed df).map (mkRec (curOf allowed df))).map
      (fun c => c.user_id) = usersOf allowed df := by
    rw [List.map_map]
    exact List.map_id'' (fun u => rfl) _
  have hmapperm : List.Perm
      ((detect_curious_users allowed df).map (fun c => c.user_id))
      (usersOf allowed df) :=
    husers ▸ hperm.map (fun c => c.user_id)
  have hnu : (usersOf allowed df).Nodup := by
    unfold usersOf
    exact (List.perm_insertionSort _ _).nodup_iff.mpr (List.nodup_dedup _)
  refine ⟨hmapperm.nodup_iff.mpr hnu, ?_, ?_, ?_⟩
  · intro u
    rw [hmapperm.mem_iff]
    unfold usersOf
    rw [List.mem_insertionSort, List.mem_dedup,
      ← curFilter_length allowed df u, ← List.countP_eq_length_filter,
      List.countP_pos_iff]
    simp only [List.mem_map, beq_iff_eq]
  · intro c hc
    rcases List.mem_map.mp (hperm.mem_iff.mp hc) with ⟨u, _, rfl⟩
    show (mkRec (curOf allowed df) u).attempts =
      countUnauth allowed df (mkRec (curOf allowed df) u).user_id
    unfold mkRec
    exact curFilter_length allowed df u
  · exact List.sorted_insertionSort attDesc _

/-- C7 witness: the spec's end-to-end example — "U2" has one failed access
to room "X" while allowed only "Y", so "U2" appears in the output. -/
theorem c7_curious_rows_witness :
    "U2" ∈ (detect_curious_users awY
        [⟨"U2", "X", "X", "t", some (PyVal.pyBool false)⟩]).map
      (fun c => c.user_id) :=
  ((c7_curious_rows awY
    [⟨"U2", "X", "X", "t", some (PyVal.pyBool false)⟩]).2.1 "U2").mpr
    (by decide)

/-- C4: the cascading reassignments of `label_row` implement exactly
last-match-wins evaluation of the five ordered rules over the default
"Other/Office"; and the spec's example — 10 visits all at hours 11-13,
median dwell 45 minutes, no morning or evening traffic — gets the label
"Conference/Meeting". -/
theorem c4_label_last_match_wins :
    (∀ (med : ℚ) (hist : Nat → Nat),
      label_row med hist = lastMatch "Other/Office"
        (roomRules med (bMorning hist) (bLunch hist) (bEve hist)
          (bNight hist))) ∧
    label_row 45 (fun h => if h = 11 then 3 else if h = 12 then 4
      else if h = 13 then 3 else 0) = "Conference/Meeting" := by
  constructor
  · intro med hist
    simp only [label_row, lastMatch, roomRules, List.foldl_cons,
      List.foldl_nil, Bool.and_eq_true, decide_eq_true_eq, and_assoc]
  · decide

end Badges
